import Mathlib

/-!
Verification development for the brainmaps retained-mode canvas library.

The embedding follows the TypeScript source:
* `src/libs/brainmaps.ts` — `BrainMapsPath2D` (the device-scaled path
  builder), `Drawable`, and the `BrainMaps` scene/event engine
  (`searchObject`, `createObject`, `draw`, `_trigger_events`).
* `src/libs/shapes.ts` — `CenterAnchorShapes.roundedRectangle`.
* `src/index.ts` — the text layout engine (`layoutText`).

JavaScript numbers are modelled as rationals (`ℚ`).  The ambient global
`window.devicePixelRatio` is threaded as an explicit `dpi` argument read at
call time.  Angle arguments of `arc` are recorded in units of π (the source
passes `-Math.PI`, `-Math.PI / 2`, …; we record `-1`, `-1/2`, …), which is
irrelevant to every property proved here because angles are only carried,
never computed with.
-/

/-! ### Path builder (`BrainMapsPath2D`, src/libs/brainmaps.ts lines 374–417)

`PathSeg` records one invocation of an underlying `Path2D` primitive with
the exact numeric arguments the source passes to it. -/

inductive PathSeg where
  | moveTo (x y : ℚ)
  | lineTo (x y : ℚ)
  | arc (x y radius startAngle endAngle : ℚ) (anticlockwise : Bool)
  | arcTo (x1 y1 x2 y2 radius : ℚ)
  | bezierCurveTo (cp1x cp1y cp2x cp2y x y : ℚ)
  | quadraticCurveTo (cpx cpy x y : ℚ)
  | ellipse (x y radiusX radiusY rotation startAngle endAngle : ℚ) (anticlockwise : Bool)
  | rect (x y w h : ℚ)
  | closePath
deriving DecidableEq, Repr

structure BrainMapsPath2D where
  segs : List PathSeg
deriving DecidableEq, Repr

/-- `new BrainMapsPath2D()` — starts with an empty underlying `Path2D`. -/
def BrainMapsPath2D.empty : BrainMapsPath2D := ⟨[]⟩

/-- `arc`: `this._path2d.arc(x * dpi, y * dpi, radius * dpi, startAngle, endAngle, anticlockwise)`. -/
def BrainMapsPath2D.arc (p : BrainMapsPath2D) (dpi x y radius startAngle endAngle : ℚ)
    (anticlockwise : Bool) : BrainMapsPath2D :=
  ⟨p.segs ++ [PathSeg.arc (x * dpi) (y * dpi) (radius * dpi) startAngle endAngle anticlockwise]⟩

/-- `arcTo`: the source body is
`this._path2d.arc(x1 * dpi, y1 * dpi, x2 * dpi, y2 * dpi, radius * dpi);`
— it invokes the underlying `arc` primitive (with `anticlockwise` absent,
i.e. false), not `arcTo`. -/
def BrainMapsPath2D.arcTo (p : BrainMapsPath2D) (dpi x1 y1 x2 y2 radius : ℚ) : BrainMapsPath2D :=
  ⟨p.segs ++ [PathSeg.arc (x1 * dpi) (y1 * dpi) (x2 * dpi) (y2 * dpi) (radius * dpi) false]⟩

def BrainMapsPath2D.bezierCurveTo (p : BrainMapsPath2D) (dpi cp1x cp1y cp2x cp2y x y : ℚ) :
    BrainMapsPath2D :=
  ⟨p.segs ++ [PathSeg.bezierCurveTo (cp1x * dpi) (cp1y * dpi) (cp2x * dpi) (cp2y * dpi)
    (x * dpi) (y * dpi)]⟩

def BrainMapsPath2D.closePath (p : BrainMapsPath2D) : BrainMapsPath2D :=
  ⟨p.segs ++ [PathSeg.closePath]⟩

/-- `ellipse`: the source multiplies `rotation` (an angle) by `dpi` as well:
`this._path2d.ellipse(x * dpi, y * dpi, radiusX * dpi, radiusY * dpi, rotation * dpi, startAngle, endAngle, anticlockwise)`. -/
def BrainMapsPath2D.ellipse (p : BrainMapsPath2D)
    (dpi x y radiusX radiusY rotation startAngle endAngle : ℚ) (anticlockwise : Bool) :
    BrainMapsPath2D :=
  ⟨p.segs ++ [PathSeg.ellipse (x * dpi) (y * dpi) (radiusX * dpi) (radiusY * dpi)
    (rotation * dpi) startAngle endAngle anticlockwise]⟩

def BrainMapsPath2D.lineTo (p : BrainMapsPath2D) (dpi x y : ℚ) : BrainMapsPath2D :=
  ⟨p.segs ++ [PathSeg.lineTo (x * dpi) (y * dpi)]⟩

def BrainMapsPath2D.moveTo (p : BrainMapsPath2D) (dpi x y : ℚ) : BrainMapsPath2D :=
  ⟨p.segs ++ [PathSeg.moveTo (x * dpi) (y * dpi)]⟩

def BrainMapsPath2D.quadraticCurveTo (p : BrainMapsPath2D) (dpi cpx cpy x y : ℚ) :
    BrainMapsPath2D :=
  ⟨p.segs ++ [PathSeg.quadraticCurveTo (cpx * dpi) (cpy * dpi) (x * dpi) (y * dpi)]⟩

def BrainMapsPath2D.rect (p : BrainMapsPath2D) (dpi x y w h : ℚ) : BrainMapsPath2D :=
  ⟨p.segs ++ [PathSeg.rect (x * dpi) (y * dpi) (w * dpi) (h * dpi)]⟩

/-- `getPath()` returns the underlying `Path2D` (our segment list). -/
def BrainMapsPath2D.getPath (p : BrainMapsPath2D) : List PathSeg := p.segs

/-! ### Shape library (`CenterAnchorShapes.roundedRectangle`, src/libs/shapes.ts)

Angle coefficients are in units of π: the source's `-Math.PI` is `-1`,
`-Math.PI / 2` is `-1/2`, `0` is `0`, `Math.PI / 2` is `1/2`, `Math.PI` is `1`. -/

def roundedRectangle (dpi anchorX anchorY width height borderRadius : ℚ) :
    Except String BrainMapsPath2D :=
  if anchorX < 0 ∨ anchorY < 0 ∨ width ≤ 0 ∨ height ≤ 0 ∨ borderRadius < 0 then
    Except.error "Invalid input"
  else
    if borderRadius = 0 then
      Except.ok ((BrainMapsPath2D.empty).rect dpi (anchorX - (1/2) * width)
        (anchorY - (1/2) * height) width height)
    else
      let br := min ((1/2) * min width height) borderRadius
      let topLeftX := anchorX - (1/2) * width
      let topLeftY := anchorY - (1/2) * height
      let topRightX := anchorX + (1/2) * width
      let topRightY := anchorY - (1/2) * height
      let bottomLeftX := anchorX - (1/2) * width
      let bottomLeftY := anchorY + (1/2) * height
      let bottomRightX := anchorX + (1/2) * width
      let bottomRightY := anchorY + (1/2) * height
      let node := BrainMapsPath2D.empty
      let node := node.moveTo dpi topLeftX (topLeftY + br)
      let node := node.arc dpi (topLeftX + br) (topLeftY + br) br (-1) (-(1/2)) false
      let node := node.lineTo dpi (topRightX - br) topRightY
      let node := node.arc dpi (topRightX - br) (topRightY + br) br (-(1/2)) 0 false
      let node := node.lineTo dpi bottomRightX (bottomRightY - br)
      let node := node.arc dpi (bottomRightX - br) (bottomRightY - br) br 0 (1/2) false
      let node := node.lineTo dpi (bottomLeftX + br) bottomLeftY
      let node := node.arc dpi (bottomLeftX + br) (bottomLeftY - br) br (1/2) 1 false
      let node := node.lineTo dpi topLeftX (topLeftY + br)
      let node := node.closePath
      Except.ok node

/-- `true` exactly when the call threw (`Except.error`). -/
def exceptIsError {ε α : Type} : Except ε α → Bool
  | Except.error _ => true
  | Except.ok _ => false

/-! ### Drawable and the scene/event engine (src/libs/brainmaps.ts)

A `Drawable` record.  Optional interface fields are `Option`s; the
JavaScript presence test `'fillObject' in obj` corresponds to the option
being `some`.  The optional callbacks (`onHover`, …) are modelled by
presence flags; dispatch is observed as an emitted event trace. -/

structure Drawable where
  uuid : String
  id : String
  path : List PathSeg
  fillObject : Option Bool
  fillStyle : Option String
  strokeStyle : Option String
  lineWidth : Option ℚ
  hasOnHover : Bool
  hasOnClick : Bool
  hasOnMouseLeave : Bool
  hasOnRightClick : Bool
  hasOnDoubleClick : Bool
deriving DecidableEq, Repr

/-- The style record destructured by `createObject`. -/
structure DrawStyle where
  fillStyle : String
  strokeStyle : String
  lineWidth : ℚ
deriving DecidableEq, Repr

/-- The guard `id.startsWith('#')` of `createObject`, expressed as a
first-character test (for a one-character prefix the two are the same). -/
def startsWithHash (id : String) : Bool :=
  match id.data with
  | [] => false
  | c :: _ => c = '#'

/-- `BrainMaps.createObject(id, path, {fillStyle, strokeStyle, lineWidth}, isFillObject)`.
`uuid.v4()` is a fresh random identifier; it is threaded as the explicit
argument `freshUuid`.  Throwing is modelled as `Except.error`.  The lodash
`_.merge` of the default record with the explicit record yields a record
with every explicit key present, so all option fields are `some`; no
callback keys are present on the result. -/
def createObject (freshUuid : String) (id : String) (path : BrainMapsPath2D)
    (style : DrawStyle) (isFillObject : Bool) : Except String Drawable :=
  if ¬ startsWithHash id = true then
    Except.error "id must start with # and be a valid identifier"
  else
    Except.ok {
      uuid := freshUuid
      id := id
      path := path.getPath
      fillObject := some isFillObject
      fillStyle := some style.fillStyle
      strokeStyle := some style.strokeStyle
      lineWidth := some style.lineWidth
      hasOnHover := false
      hasOnClick := false
      hasOnMouseLeave := false
      hasOnRightClick := false
      hasOnDoubleClick := false }

/-- `BrainMaps.searchObject(identifier)`:
`let target = undefined; this._OBJ_STACK.map(obj => { if (obj.id === identifier) target = obj; }); return target;`
— the assignment overwrites `target` on every match. -/
def searchObject (stack : List Drawable) (identifier : String) : Option Drawable :=
  stack.foldl (fun target obj => if obj.id = identifier then some obj else target) none

/-! #### Hit testing and event dispatch (`_trigger_events`) -/

inductive BMEvent where
  | hover | mouseleave | doubleclick | click | rightclick
deriving DecidableEq, Repr

/-- The geometric oracle: the canvas context's `isPointInPath` /
`isPointInStroke` queries against a built path. -/
structure HitCtx where
  isPointInPath : List PathSeg → ℚ → ℚ → Bool
  isPointInStroke : List PathSeg → ℚ → ℚ → Bool

/-- The per-candidate test of `_trigger_events`:
`if ('fillObject' in obj && obj.fillObject === true)` use `isPointInPath`,
else use `isPointInStroke`. -/
def hitTestObj (ctx : HitCtx) (x y : ℚ) (obj : Drawable) : Bool :=
  if obj.fillObject = some true then ctx.isPointInPath obj.path x y
  else ctx.isPointInStroke obj.path x y

/-- Accumulator of the `.slice().reverse().map(...)` scan in
`_trigger_events`: `hit_objs`, `missed_objs`, `object_hit`, and the hover
cache `_objcache_last_hist`. -/
structure ScanState where
  hits : List Drawable
  missed : List Drawable
  objectHit : Bool
  cache : Option Drawable
deriving Repr

/-- One iteration of the scan callback.  On a hit (only possible while
`object_hit` is false): push the object, flag `object_hit`, push the stale
cache entry (if any, and distinct by uuid) onto `missed_objs`, set the
cache, and return early.  Otherwise fall through to the stale-cache check:
if the cache holds this very object, push it onto `missed_objs` and clear
the cache. -/
def scanStep (ctx : HitCtx) (x y : ℚ) (st : ScanState) (obj : Drawable) : ScanState :=
  if st.objectHit = false ∧ hitTestObj ctx x y obj = true then
    { hits := st.hits ++ [obj]
      missed :=
        match st.cache with
        | some c => if c.uuid ≠ obj.uuid then st.missed ++ [c] else st.missed
        | none => st.missed
      objectHit := true
      cache := some obj }
  else
    match st.cache with
    | some c =>
        if c.uuid = obj.uuid then
          { st with missed := st.missed ++ [obj], cache := none }
        else st
    | none => st

/-- The whole scan: over the reversed object stack (topmost first). -/
def triggerScan (ctx : HitCtx) (x y : ℚ) (cache : Option Drawable)
    (stack : List Drawable) : ScanState :=
  stack.reverse.foldl (scanStep ctx x y) ⟨[], [], false, cache⟩

/-- The `switch (eventType)` dispatch on a hit object; each callback is
presence-guarded (`if ('onClick' in obj) …`).  The `switch` has no
`mouseleave` case. -/
def dispatchHit (eventType : BMEvent) (obj : Drawable) : List (BMEvent × String) :=
  match eventType with
  | BMEvent.click => if obj.hasOnClick then [(BMEvent.click, obj.uuid)] else []
  | BMEvent.doubleclick => if obj.hasOnDoubleClick then [(BMEvent.doubleclick, obj.uuid)] else []
  | BMEvent.rightclick => if obj.hasOnRightClick then [(BMEvent.rightclick, obj.uuid)] else []
  | BMEvent.hover => if obj.hasOnHover then [(BMEvent.hover, obj.uuid)] else []
  | BMEvent.mouseleave => []

/-- Result of one `_trigger_events` dispatch: the emitted callback trace,
the new hover cache, and the returned `object_hit` flag. -/
structure TriggerResult where
  events : List (BMEvent × String)
  cache : Option Drawable
  objectHit : Bool
deriving Repr

/-- `_trigger_events(mouseX, mouseY, eventType)`: scale the pointer by the
device pixel ratio, scan, then invoke the event callback on each of
`hit_objs` and `onMouseLeave` on each of `missed_objs` (callback bodies are
opaque; invocations are recorded as events). -/
def triggerEvents (ctx : HitCtx) (dpi : ℚ) (cache : Option Drawable)
    (stack : List Drawable) (mouseX mouseY : ℚ) (eventType : BMEvent) : TriggerResult :=
  let x := mouseX * dpi
  let y := mouseY * dpi
  let st := triggerScan ctx x y cache stack
  let hitEvents := st.hits.flatMap (dispatchHit eventType)
  let leaveEvents := st.missed.flatMap
    (fun o => if o.hasOnMouseLeave then [(BMEvent.mouseleave, o.uuid)] else [])
  ⟨hitEvents ++ leaveEvents, st.cache, st.objectHit⟩

/-! #### Redraw scheduling (`draw`) -/

/-- Observable surface state for `draw()`: the object stack, the number of
frame callbacks currently queued via `requestAnimationFrame`, the number of
completed paints (each queued callback clears the canvas and re-renders the
whole stack when the frame fires), and the number of synchronous clears
performed on an empty stack.  (`_fixDPI`'s canvas resizing is not
observable here.) -/
structure SurfaceState where
  store : List Drawable
  pendingPaints : Nat
  paintCount : Nat
  syncClears : Nat
deriving Repr

/-- `draw()`: if the stack is empty, clear synchronously and return;
otherwise `window.requestAnimationFrame(paint)` — each call queues one
more frame callback (there is no pending-flag coalescing in the source). -/
def draw (s : SurfaceState) : SurfaceState :=
  if s.store.length = 0 then { s with syncClears := s.syncClears + 1 }
  else { s with pendingPaints := s.pendingPaints + 1 }

/-- The next display-frame tick: the browser runs every queued
`requestAnimationFrame` callback once, in order; each performs one full
clear-and-repaint of the surface. -/
def frameTick (s : SurfaceState) : SurfaceState :=
  { s with paintCount := s.paintCount + s.pendingPaints, pendingPaints := 0 }

/-- `n` successive synchronous `draw()` calls. -/
def drawN : Nat → SurfaceState → SurfaceState
  | 0, s => s
  | n + 1, s => drawN n (draw s)

/-! ### Text layout engine (`layoutText`, src/index.ts)

Tokenization mirrors `text.match(/([a-z!,.'"?()]+\s?)|([^a-z\s])/gi)`:
a maximal run of Latin letters / the listed ASCII punctuation, plus at most
one trailing whitespace character, is one unit; any other single
non-whitespace character is its own unit; unmatched whitespace is skipped.
Measurement (`tryLayout`, a hidden DOM measurement) is an oracle
`measure : String → ℚ` giving the measured width. -/

/-- Membership in the character class `[a-z!,.'"?()]` with the `i` flag. -/
def latinClassChar (c : Char) : Bool :=
  (('a' ≤ c ∧ c ≤ 'z') ∨ ('A' ≤ c ∧ c ≤ 'Z')) ∨
    c ∈ ['!', ',', '.', Char.ofNat 39, '"', '?', '(', ')']

/-- JavaScript's `\s` character class. -/
def isJsWhitespace (c : Char) : Bool :=
  c = ' ' ∨ c = Char.ofNat 9 ∨ c = Char.ofNat 10 ∨ c = Char.ofNat 11 ∨
    c = Char.ofNat 12 ∨ c = Char.ofNat 13 ∨ c = Char.ofNat 0xa0 ∨
    c = Char.ofNat 0x1680 ∨ (Char.ofNat 0x2000 ≤ c ∧ c ≤ Char.ofNat 0x200a) ∨
    c = Char.ofNat 0x2028 ∨ c = Char.ofNat 0x2029 ∨ c = Char.ofNat 0x202f ∨
    c = Char.ofNat 0x205f ∨ c = Char.ofNat 0x3000 ∨ c = Char.ofNat 0xfeff

/-- Scanner for the global regex match; `run` is the Latin-class run
accumulated so far. -/
def tokenizeAux (run : List Char) : List Char → List (List Char)
  | [] => if run.isEmpty then [] else [run]
  | c :: cs =>
    if latinClassChar c then tokenizeAux (run ++ [c]) cs
    else
      if run.isEmpty then
        if isJsWhitespace c then tokenizeAux [] cs
        else [c] :: tokenizeAux [] cs
      else
        if isJsWhitespace c then (run ++ [c]) :: tokenizeAux [] cs
        else run :: [c] :: tokenizeAux [] cs

/-- `text.match(/([a-z!,.'"?()]+\s?)|([^a-z\s])/gi)` as a list of units
(the JavaScript call returns `null` instead of an empty list; callers are
responsible for that case). -/
def tokenizeText (text : String) : List String :=
  (tokenizeAux [] text.data).map (fun cs => String.mk cs)

/-- The fixed CJK closing/trailing punctuation list
`"，。！；？“”：（）".split('')`. -/
def cnPunctChars : List Char := "，。！；？“”：（）".data

/-- `"，。！；？“”：（）".split('').includes(u)` — the unit is exactly one of
the listed single-character strings. -/
def isCnPunctUnit (u : String) : Bool :=
  cnPunctChars.any (fun c => u = String.mk [c])

/-- `lines[lines.length - 1] = s` on a JavaScript array. -/
def setLast (l : List String) (s : String) : List String :=
  l.dropLast ++ [s]

/-- The punctuation post-process loop body, given that at least one unit
(`i = 0`) has already been pushed onto the accumulator:
`if (i > 0 && punct.includes(u)) last += u; else push(u)`. -/
def mergeAux (acc : List String) : List String → List String
  | [] => acc
  | u :: rest =>
    if isCnPunctUnit u then mergeAux (setLast acc (acc.getLastD "" ++ u)) rest
    else mergeAux (acc ++ [u]) rest

/-- The whole `_cnpunc_array` post-process: the unit at index `0` is always
pushed (the `i > 0` guard), later units go through `mergeAux`. -/
def mergeCJKPunct : List String → List String
  | [] => []
  | u :: rest => mergeAux [u] rest

/-! #### The greedy line-fill loop -/

/-- Loop state of the `while (_temp_text.length > 0)` loop:
`_temp_text`, `lines`, `line_pointer`, `_maxWidth`. -/
structure FillState where
  temp : List String
  lines : List String
  linePointer : String
  maxW : ℚ
deriving DecidableEq, Repr

/-- One iteration of the loop body.  Note the third case: when the
tentative width exceeds `maxWidth` *and* the current line is empty, the
body changes nothing — the JavaScript loop repeats forever in that state. -/
def fillStep (measure : String → ℚ) (maxWidth : ℚ) (st : FillState) : FillState :=
  match st.temp with
  | [] => st
  | w :: rest =>
    let sz := measure (String.trim (st.linePointer ++ w))
    if sz ≤ maxWidth then
      { temp := rest
        lines := setLast st.lines (st.linePointer ++ w)
        linePointer := st.linePointer ++ w
        maxW := max sz st.maxW }
    else
      if (st.lines.getLastD "").length ≠ 0 then
        { st with
          lines := setLast st.lines (String.trim (st.lines.getLastD "")) ++ [""]
          linePointer := "" }
      else st

/-- Fuel-bounded execution of the `while` loop.  `some st` means the loop
guard became false (all units consumed) within `fuel` iterations; `none`
means the given fuel was exhausted first — in particular, if the state
repeats forever the JavaScript loop never terminates and the result is
`none` for every fuel. -/
def fillRun (measure : String → ℚ) (maxWidth : ℚ) : Nat → FillState → Option FillState
  | 0, st => if st.temp.isEmpty then some st else none
  | n + 1, st =>
    if st.temp.isEmpty then some st
    else fillRun measure maxWidth n (fillStep measure maxWidth st)

/-- The initial loop state: `lines = ['']`, `line_pointer = ''`,
`_maxWidth = 0`, `_temp_text` the merged unit list. -/
def initFillState (units : List String) : FillState :=
  ⟨units, [""], "", 0⟩

structure LayoutResult where
  width : ℚ
  height : ℚ
  lines : List String
deriving DecidableEq, Repr

/-- The `textMaxWidth > 0` branch of `layoutText`.  `none` models a thrown
`LayoutError` (the regex `match` returned `null` on a unit-free input) or a
never-terminating loop (fuel exhausted). -/
def layoutText (measure : String → ℚ) (textSize textMaxWidth : ℚ) (text : String)
    (fuel : Nat) : Option LayoutResult :=
  let tokens := tokenizeText text
  if tokens.isEmpty then none
  else
    match fillRun measure textMaxWidth fuel (initFillState (mergeCJKPunct tokens)) with
    | none => none
    | some st =>
      some {
        width := min st.maxW textMaxWidth
        height := (st.lines.length : ℚ) * textSize +
          ((st.lines.length : ℚ) - 1) * (1/4) * textSize
        lines := st.lines }

/-! ## Claims -/

/-- A concrete drawable used in closed witnesses and counterexamples. -/
def sampleDrawable : Drawable :=
  ⟨"u0", "#obj", [], none, none, none, none, false, false, false, false, false⟩

/-- First of two drawables sharing the display id `#a`. -/
def dupA1 : Drawable :=
  ⟨"u1", "#a", [], none, none, none, none, false, false, false, false, false⟩

/-- Second of two drawables sharing the display id `#a`. -/
def dupA2 : Drawable :=
  ⟨"u2", "#a", [], none, none, none, none, false, false, false, false, false⟩

/-- C6: `roundedRectangle(anchorX, anchorY, width, height, borderRadius)`
fails with the `InvalidGeometry` error if and only if
`anchorX < 0 ∨ anchorY < 0 ∨ width ≤ 0 ∨ height ≤ 0 ∨ borderRadius < 0`;
on failure the `Except.error` carries no path (and the function is pure, so
no existing state is affected). -/
theorem roundedRectangle_error_iff (dpi anchorX anchorY width height borderRadius : ℚ) :
    exceptIsError (roundedRectangle dpi anchorX anchorY width height borderRadius) = true ↔
      (anchorX < 0 ∨ anchorY < 0 ∨ width ≤ 0 ∨ height ≤ 0 ∨ borderRadius < 0) := by
  unfold roundedRectangle
  split
  · next h => simpa [exceptIsError] using h
  · next h =>
    constructor
    · intro hc
      split at hc <;> simp [exceptIsError] at hc
    · intro hc; exact absurd hc h

/-- C10: `createObject(id, path, style, isFillObject)` throws for every id
not starting with `#`, and for every id starting with `#` returns a
`Drawable` carrying that id, the freshly generated identity, and the built
path (`path.getPath()`). -/
theorem createObject_contract (freshUuid id : String) (path : BrainMapsPath2D)
    (style : DrawStyle) (isFillObject : Bool) :
    (startsWithHash id = false →
      createObject freshUuid id path style isFillObject =
        Except.error "id must start with # and be a valid identifier") ∧
    (startsWithHash id = true →
      ∃ d : Drawable, createObject freshUuid id path style isFillObject = Except.ok d ∧
        d.id = id ∧ d.uuid = freshUuid ∧ d.path = path.getPath ∧
        d.fillObject = some isFillObject) := by
  constructor
  · intro h; simp [createObject, h]
  · intro h
    exact ⟨⟨freshUuid, id, path.getPath, some isFillObject, some style.fillStyle,
      some style.strokeStyle, some style.lineWidth, false, false, false, false, false⟩,
      by simp [createObject, h], rfl, rfl, rfl, rfl⟩

/-- Witness for C10 at a concrete accepted id. -/
theorem createObject_contract_witness :
    ∃ d : Drawable, createObject "u-fresh" "#node" BrainMapsPath2D.empty ⟨"#FFFFFF", "#000000", 2⟩ true =
        Except.ok d ∧ d.id = "#node" ∧ d.uuid = "u-fresh" ∧
        d.path = BrainMapsPath2D.empty.getPath ∧ d.fillObject = some true :=
  (createObject_contract "u-fresh" "#node" BrainMapsPath2D.empty ⟨"#FFFFFF", "#000000", 2⟩ true).2
    (by decide)

/-- C8: evaluation at the failing input.  `BrainMapsPath2D.arcTo(1,2,3,4,5)`
at device scale 2 emits the underlying `arc` primitive — with `x2`, `y2`
landing in the radius and start-angle slots — instead of the underlying
`arcTo`; and `ellipse` scales its `rotation` angle argument by the device
scale factor (here rotation 3 becomes 6). -/
theorem arcTo_emits_arc :
    (BrainMapsPath2D.empty.arcTo 2 1 2 3 4 5).segs = [PathSeg.arc 2 4 6 8 10 false] ∧
    (BrainMapsPath2D.empty.ellipse 2 1 1 1 1 3 0 1 false).segs =
      [PathSeg.ellipse 2 2 2 2 6 0 1 false] := by
  constructor
  · simp [BrainMapsPath2D.arcTo, BrainMapsPath2D.empty]; norm_num
  · simp [BrainMapsPath2D.ellipse, BrainMapsPath2D.empty]; norm_num

/-- C2 counterexample: with a non-empty store, five synchronous `draw()`
calls before the next frame tick queue five frame callbacks, and the tick
performs five paints of the surface, not one. -/
theorem draw_five_paints_not_one :
    (frameTick (drawN 5 ⟨[sampleDrawable], 0, 0, 0⟩)).paintCount = 5 ∧
      ¬ (frameTick (drawN 5 ⟨[sampleDrawable], 0, 0, 0⟩)).paintCount = 1 := by
  exact ⟨by decide, by decide⟩

/-- `n` `draw()` calls on a non-empty store queue `n` frame callbacks. -/
theorem drawN_pendingPaints (n : Nat) (s : SurfaceState) (h : ¬ s.store.length = 0) :
    drawN n s = { s with pendingPaints := s.pendingPaints + n } := by
  induction n generalizing s with
  | zero => simp [drawN]
  | succ n ih =>
    have hd : draw s = { s with pendingPaints := s.pendingPaints + 1 } := by
      simp [draw, h]
    have h1 : drawN (n + 1) s = drawN n (draw s) := rfl
    rw [h1, hd, ih { s with pendingPaints := s.pendingPaints + 1 } (by simpa using h)]
    simp [Nat.add_assoc]
    omega

/-- C2 amended: each `draw()` call with a non-empty store schedules its own
frame callback; `n` synchronous calls before the tick result in `n`
additional paints executed at the next frame tick (no coalescing). -/
theorem draw_no_coalescing (s : SurfaceState) (n : Nat) (h : ¬ s.store.length = 0) :
    (frameTick (drawN n s)).paintCount = s.paintCount + s.pendingPaints + n := by
  rw [drawN_pendingPaints n s h]
  simp [frameTick, Nat.add_assoc]

/-- Witness for the amended C2 at a concrete surface. -/
theorem draw_no_coalescing_witness :
    (frameTick (drawN 3 ⟨[sampleDrawable], 0, 0, 0⟩)).paintCount = 0 + 0 + 3 :=
  draw_no_coalescing ⟨[sampleDrawable], 0, 0, 0⟩ 3 (by decide)

/-- C3 counterexample: with two store entries sharing the display id `#a`
(in insertion order `dupA1` then `dupA2`), `searchObject` returns the
second entry, not the first. -/
theorem searchObject_not_first :
    searchObject [dupA1, dupA2] "#a" = some dupA2 ∧
      ¬ searchObject [dupA1, dupA2] "#a" = some dupA1 := by
  exact ⟨by decide, by decide⟩

/-- A measurement oracle reporting width 2 for every string. -/
def wideMeasure : String → ℚ := fun _ => 2

/-- C1: evaluation at the failing input.  With every unit measuring width 2
against `maxWidth = 1`, the single unit `"X"` is rejected from the empty
first line; the loop body then changes nothing (the unit is neither
consumed nor placed), so the state repeats and the `while` loop of
`layoutText` never terminates: `fillRun` is `none` for every fuel, and so
is `layoutText`. -/
theorem layout_loop_stuck :
    fillStep wideMeasure 1 (initFillState ["X"]) = initFillState ["X"] ∧
      (∀ fuel : Nat, fillRun wideMeasure 1 fuel (initFillState ["X"]) = none) ∧
      (∀ fuel : Nat, layoutText wideMeasure 24 1 "X" fuel = none) := by
  have hstep : fillStep wideMeasure 1 (initFillState ["X"]) = initFillState ["X"] := by decide
  have hrun : ∀ fuel : Nat, fillRun wideMeasure 1 fuel (initFillState ["X"]) = none := by
    intro fuel
    induction fuel with
    | zero => decide
    | succ n ih =>
      have h1 : fillRun wideMeasure 1 (n + 1) (initFillState ["X"]) =
          fillRun wideMeasure 1 n (fillStep wideMeasure 1 (initFillState ["X"])) := by
        simp [fillRun, initFillState]
      rw [h1, hstep]
      exact ih
  refine ⟨hstep, hrun, ?_⟩
  intro fuel
  have htok : tokenizeText "X" = ["X"] := by decide
  have hmerge : mergeCJKPunct ["X"] = ["X"] := by decide
  simp [layoutText, htok, hmerge, hrun fuel]

/-- The overwrite fold of `searchObject`, unravelled: it computes the first
match of the *reversed* stack. -/
theorem searchObject_foldl (identifier : String) (l : List Drawable) (acc : Option Drawable) :
    l.foldl (fun target obj => if obj.id = identifier then some obj else target) acc =
      ((l.reverse.find? (fun o => decide (o.id = identifier))).orElse (fun _ => acc)) := by
  induction l generalizing acc with
  | nil => simp
  | cons a l ih =>
    simp only [List.foldl_cons, List.reverse_cons]
    rw [ih]
    by_cases h : a.id = identifier
    · cases hf : l.reverse.find? (fun o => decide (o.id = identifier)) with
      | some x => simp [List.find?_append, hf, Option.orElse]
      | none => simp [List.find?_append, hf, Option.orElse, List.find?, h]
    · cases hf : l.reverse.find? (fun o => decide (o.id = identifier)) with
      | some x => simp [List.find?_append, hf, Option.orElse]
      | none => simp [List.find?_append, hf, Option.orElse, List.find?, h]

/-- C3 amended: `searchObject(identifier)` performs a linear scan and
returns the *last* store entry (in insertion order) whose display id
equals the identifier — equivalently the first match of the reversed
stack — or `none` when no entry matches. -/
theorem searchObject_last_match (stack : List Drawable) (identifier : String) :
    searchObject stack identifier =
      stack.reverse.find? (fun o => decide (o.id = identifier)) := by
  rw [searchObject, searchObject_foldl]
  cases hf : stack.reverse.find? (fun o => decide (o.id = identifier)) <;>
    simp [Option.orElse]

/-- After a hit has been recorded (`object_hit = true`), one scan step
never adds to `hit_objs` and the flag stays set. -/
theorem scanStep_after_hit (ctx : HitCtx) (x y : ℚ) (st : ScanState) (obj : Drawable)
    (h : st.objectHit = true) :
    (scanStep ctx x y st obj).hits = st.hits ∧ (scanStep ctx x y st obj).objectHit = true := by
  obtain ⟨hits, missed, objectHit, cache⟩ := st
  simp only at h
  subst h
  unfold scanStep
  rw [if_neg (by simp)]
  cases cache with
  | none => exact ⟨rfl, rfl⟩
  | some c =>
    by_cases hc : c.uuid = obj.uuid
    · simp [hc]
    · simp [hc]

/-- After a hit has been recorded, the remaining scan never adds to
`hit_objs`. -/
theorem scanFold_after_hit (ctx : HitCtx) (x y : ℚ) (l : List Drawable) (st : ScanState)
    (h : st.objectHit = true) :
    (l.foldl (scanStep ctx x y) st).hits = st.hits := by
  induction l generalizing st with
  | nil => rfl
  | cons a l ih =>
    obtain ⟨h1, h2⟩ := scanStep_after_hit ctx x y st a h
    rw [List.foldl_cons, ih _ h2, h1]

/-- A miss (or a step before any hit on a non-matching candidate) leaves
`hit_objs` and the flag unchanged. -/
theorem scanStep_miss (ctx : HitCtx) (x y : ℚ) (st : ScanState) (obj : Drawable)
    (h : hitTestObj ctx x y obj = false) :
    (scanStep ctx x y st obj).hits = st.hits ∧
      (scanStep ctx x y st obj).objectHit = st.objectHit := by
  obtain ⟨hits, missed, objectHit, cache⟩ := st
  unfold scanStep
  rw [if_neg (by simp [h])]
  cases cache with
  | none => exact ⟨rfl, rfl⟩
  | some c =>
    by_cases hc : c.uuid = obj.uuid
    · simp [hc]
    · simp [hc]

/-- As long as no hit has been recorded and no hits accumulated, the scan's
`hit_objs` is exactly the first spatial match of the remaining candidates. -/
theorem scanFold_hits (ctx : HitCtx) (x y : ℚ) (l : List Drawable) (st : ScanState)
    (h : st.objectHit = false) (hh : st.hits = []) :
    (l.foldl (scanStep ctx x y) st).hits = (l.find? (hitTestObj ctx x y)).toList := by
  induction l generalizing st with
  | nil => simpa using hh
  | cons a l ih =>
    by_cases ha : hitTestObj ctx x y a = true
    · have hstep : scanStep ctx x y st a =
          { hits := st.hits ++ [a]
            missed :=
              match st.cache with
              | some c => if c.uuid ≠ a.uuid then st.missed ++ [c] else st.missed
              | none => st.missed
            objectHit := true
            cache := some a } := by
        unfold scanStep
        rw [if_pos ⟨h, ha⟩]
      rw [List.foldl_cons, hstep, scanFold_after_hit ctx x y l _ rfl]
      simp [List.find?_cons_of_pos _ ha, hh]
    · have hmiss := scanStep_miss ctx x y st a (by simpa using ha)
      rw [List.foldl_cons, ih _ (hmiss.2.trans h) (hmiss.1.trans hh)]
      rw [List.find?_cons_of_neg _ (by simpa using ha)]

/-- C4: hit testing scans the store topmost-first (the reversed stack),
testing point-in-fill when `fillObject` is `true` and point-in-stroke
otherwise, and the sole hit is the first geometric match of that scan; in
particular, for two overlapping drawables added in order `A` then `B`, a
point inside both hits `B` and never `A`. -/
theorem hit_testing_topmost_wins :
    (∀ (ctx : HitCtx) (x y : ℚ) (cache : Option Drawable) (stack : List Drawable),
      (triggerScan ctx x y cache stack).hits =
        (stack.reverse.find? (hitTestObj ctx x y)).toList) ∧
    (∀ (ctx : HitCtx) (x y : ℚ) (cache : Option Drawable) (A B : Drawable),
      hitTestObj ctx x y A = true → hitTestObj ctx x y B = true →
        (triggerScan ctx x y cache [A, B]).hits = [B]) := by
  have hgen : ∀ (ctx : HitCtx) (x y : ℚ) (cache : Option Drawable) (stack : List Drawable),
      (triggerScan ctx x y cache stack).hits =
        (stack.reverse.find? (hitTestObj ctx x y)).toList := by
    intro ctx x y cache stack
    exact scanFold_hits ctx x y stack.reverse ⟨[], [], false, cache⟩ rfl rfl
  refine ⟨hgen, ?_⟩
  intro ctx x y cache A B hA hB
  rw [hgen]
  simp [List.find?_cons_of_pos _ hB]

/-- A hit-everywhere geometric oracle, for closed instantiations. -/
def ctxAll : HitCtx := ⟨fun _ _ _ => true, fun _ _ _ => true⟩

/-- Witness for C4: with both drawables containing the point, the scan of
the two-element stack `[dupA1, dupA2]` hits only the topmost `dupA2`. -/
theorem hit_testing_topmost_wins_witness :
    (triggerScan ctxAll 0 0 none [dupA1, dupA2]).hits = [dupA2] :=
  hit_testing_topmost_wins.2 ctxAll 0 0 none dupA1 dupA2 (by decide) (by decide)

/-- C5: starting from an empty hover cache, three successive pointer-move
dispatches — at a position inside `A` only, then at a position hitting
nothing, then at a position inside `B` only — invoke exactly the callback
sequence `A.onHover`, `A.onMouseLeave`, `B.onHover`, and after each
dispatch the hover cache holds at most the one drawable stated. -/
theorem hover_enter_leave_sequence (ctx : HitCtx) (dpi : ℚ) (A B : Drawable)
    (x1 y1 x2 y2 x3 y3 : ℚ)
    (hAB : ¬ A.uuid = B.uuid)
    (hAhover : A.hasOnHover = true) (hAleave : A.hasOnMouseLeave = true)
    (hBhover : B.hasOnHover = true)
    (h1A : hitTestObj ctx (x1 * dpi) (y1 * dpi) A = true)
    (h1B : hitTestObj ctx (x1 * dpi) (y1 * dpi) B = false)
    (h2A : hitTestObj ctx (x2 * dpi) (y2 * dpi) A = false)
    (h2B : hitTestObj ctx (x2 * dpi) (y2 * dpi) B = false)
    (h3B : hitTestObj ctx (x3 * dpi) (y3 * dpi) B = true) :
    (triggerEvents ctx dpi none [A, B] x1 y1 BMEvent.hover).events =
        [(BMEvent.hover, A.uuid)] ∧
    (triggerEvents ctx dpi none [A, B] x1 y1 BMEvent.hover).cache = some A ∧
    (triggerEvents ctx dpi (some A) [A, B] x2 y2 BMEvent.hover).events =
        [(BMEvent.mouseleave, A.uuid)] ∧
    (triggerEvents ctx dpi (some A) [A, B] x2 y2 BMEvent.hover).cache = none ∧
    (triggerEvents ctx dpi none [A, B] x3 y3 BMEvent.hover).events =
        [(BMEvent.hover, B.uuid)] ∧
    (triggerEvents ctx dpi none [A, B] x3 y3 BMEvent.hover).cache = some B := by
  have hBA : ¬ B.uuid = A.uuid := fun h => hAB h.symm
  refine ⟨?_, ?_, ?_, ?_, ?_, ?_⟩ <;>
    simp [triggerEvents, triggerScan, scanStep, dispatchHit,
      h1A, h1B, h2A, h2B, h3B, hAB, hBA, hAhover, hAleave, hBhover]

/-- Concrete hoverable drawable `A` (stroke-tested, non-empty path). -/
def hoverA : Drawable :=
  ⟨"ua", "#a", [PathSeg.closePath], none, none, none, none, true, false, true, false, false⟩

/-- Concrete hoverable drawable `B` (stroke-tested, empty path). -/
def hoverB : Drawable :=
  ⟨"ub", "#b", [], none, none, none, none, true, false, true, false, false⟩

/-- A geometric oracle under which `hoverA`'s stroke contains exactly the
points with `x = 1` and `hoverB`'s stroke exactly those with `x = 3`. -/
def ctxHover : HitCtx :=
  ⟨fun _ _ _ => false,
   fun path x _ => if path.isEmpty then decide (x = 3) else decide (x = 1)⟩

/-- Witness for C5 at pointer positions `x = 1, 2, 3` (device scale 1). -/
theorem hover_enter_leave_sequence_witness :
    (triggerEvents ctxHover 1 none [hoverA, hoverB] 1 0 BMEvent.hover).events =
        [(BMEvent.hover, hoverA.uuid)] ∧
    (triggerEvents ctxHover 1 none [hoverA, hoverB] 1 0 BMEvent.hover).cache = some hoverA ∧
    (triggerEvents ctxHover 1 (some hoverA) [hoverA, hoverB] 2 0 BMEvent.hover).events =
        [(BMEvent.mouseleave, hoverA.uuid)] ∧
    (triggerEvents ctxHover 1 (some hoverA) [hoverA, hoverB] 2 0 BMEvent.hover).cache = none ∧
    (triggerEvents ctxHover 1 none [hoverA, hoverB] 3 0 BMEvent.hover).events =
        [(BMEvent.hover, hoverB.uuid)] ∧
    (triggerEvents ctxHover 1 none [hoverA, hoverB] 3 0 BMEvent.hover).cache = some hoverB :=
  hover_enter_leave_sequence ctxHover 1 hoverA hoverB 1 0 2 0 3 0
    (by decide) rfl rfl rfl
    (by norm_num [hitTestObj, ctxHover, hoverA]; decide)
    (by norm_num [hitTestObj, ctxHover, hoverB])
    (by norm_num [hitTestObj, ctxHover, hoverA])
    (by norm_num [hitTestObj, ctxHover, hoverB])
    (by norm_num [hitTestObj, ctxHover, hoverB]; decide)

/-- A string consisting of one non-punctuation unit with zero or more CJK
closing-punctuation units appended onto its end. -/
def NonPunctLead (s : String) : Prop :=
  ∃ v ps, isCnPunctUnit v = false ∧ (∀ p ∈ ps, isCnPunctUnit p = true) ∧
    s = v ++ String.join ps

theorem nonPunctLead_append (s u : String) (hs : NonPunctLead s)
    (hu : isCnPunctUnit u = true) : NonPunctLead (s ++ u) := by
  obtain ⟨v, ps, hv, hps, rfl⟩ := hs
  refine ⟨v, ps ++ [u], hv, ?_, ?_⟩
  · intro p hp
    rcases List.mem_append.1 hp with h | h
    · exact hps p h
    · rw [List.mem_singleton.1 h]; exact hu
  · apply String.ext
    simp [String.join_eq, String.data_append]

theorem nonPunctLead_self (u : String) (hu : isCnPunctUnit u = false) :
    NonPunctLead u := by
  refine ⟨u, [], hu, by simp, ?_⟩
  apply String.ext
  simp [String.join_eq, String.data_append]

theorem getLastD_cons_of_ne_nil (a d : String) (t : List String) (h : t ≠ []) :
    (a :: t).getLastD d = t.getLastD d := by
  cases t with
  | nil => exact absurd rfl h
  | cons b t' => simp [List.getLastD_eq_getLast?, List.getLast?_cons_cons]

theorem setLast_cons_of_ne_nil (a x : String) (t : List String) (h : t ≠ []) :
    setLast (a :: t) x = a :: setLast t x := by
  cases t with
  | nil => exact absurd rfl h
  | cons b t' => simp [setLast]

/-- Merging a punctuation unit into the last element preserves the
`NonPunctLead` shape of every element of the list. -/
theorem setLast_all_nonPunctLead (u : String) (hu : isCnPunctUnit u = true) :
    ∀ (t : List String), t ≠ [] → (∀ s ∈ t, NonPunctLead s) →
      ∀ s ∈ setLast t (t.getLastD "" ++ u), NonPunctLead s := by
  intro t
  induction t with
  | nil => intro h; exact absurd rfl h
  | cons a t ih =>
    intro _ hall s hs
    cases t with
    | nil =>
      simp [setLast] at hs
      rw [hs]
      exact nonPunctLead_append a u (hall a (by simp)) hu
    | cons b t' =>
      rw [getLastD_cons_of_ne_nil a "" (b :: t') (by simp),
        setLast_cons_of_ne_nil a _ (b :: t') (by simp)] at hs
      rcases List.mem_cons.1 hs with h | h
      · rw [h]; exact hall a (by simp)
      · exact ih (by simp) (fun s' hs' => hall s' (List.mem_cons_of_mem a hs')) s h

/-- Invariant of the punctuation post-process: every accumulator element
after the first keeps the `NonPunctLead` shape. -/
theorem mergeAux_tail (us : List String) :
    ∀ (acc : List String), acc ≠ [] → (∀ s ∈ acc.tail, NonPunctLead s) →
      ∀ s ∈ (mergeAux acc us).tail, NonPunctLead s := by
  induction us with
  | nil => intro acc _ h2; simpa [mergeAux] using h2
  | cons u rest ih =>
    intro acc hne h2
    by_cases hu : isCnPunctUnit u = true
    · rw [show mergeAux acc (u :: rest) = mergeAux (setLast acc (acc.getLastD "" ++ u)) rest
        from by rw [mergeAux, if_pos hu]]
      apply ih
      · simp [setLast]
      · cases acc with
        | nil => exact absurd rfl hne
        | cons a t =>
          cases t with
          | nil => simp [setLast]
          | cons b t' =>
            rw [getLastD_cons_of_ne_nil a "" (b :: t') (by simp),
              setLast_cons_of_ne_nil a _ (b :: t') (by simp)]
            intro s hs
            exact setLast_all_nonPunctLead u hu (b :: t') (by simp)
              (fun s' hs' => h2 s' (by simpa using hs')) s (by simpa using hs)
    · rw [show mergeAux acc (u :: rest) = mergeAux (acc ++ [u]) rest
        from by rw [mergeAux, if_neg hu]]
      apply ih
      · simp
      · cases acc with
        | nil => exact absurd rfl hne
        | cons a t =>
          intro s hs
          simp only [List.cons_append, List.tail_cons] at hs
          rcases List.mem_append.1 hs with h | h
          · exact h2 s (by simpa using h)
          · rw [List.mem_singleton.1 h]
            exact nonPunctLead_self u (by simpa using hu)

/-- C7: in `layoutText` tokenization, a unit from the fixed CJK
closing-punctuation set that is not the first unit is merged into the
previous output unit rather than starting a new one: every merged output
unit after the first is a non-punctuation unit with punctuation appended;
and on the spec's example, `万` and `骏` stay separate single-character
units while the following `，` attaches to `骏`. -/
theorem cjk_punct_merge :
    (∀ (us : List String), ∀ s ∈ (mergeCJKPunct us).tail, NonPunctLead s) ∧
    tokenizeText "A,b.万骏，" = ["A,b.", "万", "骏", "，"] ∧
    mergeCJKPunct (tokenizeText "A,b.万骏，") = ["A,b.", "万", "骏，"] := by
  refine ⟨?_, by decide, by decide⟩
  intro us
  cases us with
  | nil => simp [mergeCJKPunct]
  | cons u rest => exact mergeAux_tail rest [u] (by simp) (by simp)

/-- Witness for C7: on the unit list `["a", "b", "，"]` the merged output is
`["a", "b，"]`, whose sole non-head element has the `NonPunctLead` shape. -/
theorem cjk_punct_merge_witness : NonPunctLead "b，" :=
  cjk_punct_merge.1 ["a", "b", "，"] "b，" (by decide)

/-- One loop iteration only records widths that passed the `≤ maxWidth`
test, so the observed maximum never exceeds `maxWidth`. -/
theorem fillStep_maxW (measure : String → ℚ) (maxWidth : ℚ) (st : FillState)
    (h : st.maxW ≤ maxWidth) : (fillStep measure maxWidth st).maxW ≤ maxWidth := by
  obtain ⟨temp, lines, lp, mw⟩ := st
  simp only at h
  cases temp with
  | nil => simpa [fillStep] using h
  | cons w rest =>
    simp only [fillStep]
    by_cases hsz : measure (String.trim (lp ++ w)) ≤ maxWidth
    · rw [if_pos hsz]
      exact max_le hsz h
    · rw [if_neg hsz]
      by_cases hl : (lines.getLastD "").length ≠ 0
      · rw [if_pos hl]; exact h
      · rw [if_neg hl]; exact h

/-- The observed-maximum invariant holds across the whole loop. -/
theorem fillRun_maxW (measure : String → ℚ) (maxWidth : ℚ) :
    ∀ (fuel : Nat) (st st' : FillState), st.maxW ≤ maxWidth →
      fillRun measure maxWidth fuel st = some st' → st'.maxW ≤ maxWidth := by
  intro fuel
  induction fuel with
  | zero =>
    intro st st' h hr
    unfold fillRun at hr
    by_cases he : st.temp.isEmpty
    · rw [if_pos he] at hr
      obtain rfl := Option.some.inj hr
      exact h
    · rw [if_neg he] at hr
      exact absurd hr (by simp)
  | succ n ih =>
    intro st st' h hr
    unfold fillRun at hr
    by_cases he : st.temp.isEmpty
    · rw [if_pos he] at hr
      obtain rfl := Option.some.inj hr
      exact h
    · rw [if_neg he] at hr
      exact ih _ _ (fillStep_maxW measure maxWidth st h) hr

/-- C9: whenever `layoutText` returns (the loop terminated on the unit
list of `text` with the given fuel, ending in state `st`), the returned
box has width `min(observed maximum line width, maxWidth)` — which equals
the observed maximum itself, since every recorded width passed the
`≤ maxWidth` test — and height
`lineCount * fontSize + (lineCount - 1) * 0.25 * fontSize` for the
produced line count. -/
theorem layoutText_box (measure : String → ℚ) (textSize textMaxWidth : ℚ) (text : String)
    (fuel : Nat) (st : FillState)
    (hpos : 0 < textMaxWidth)
    (htok : (tokenizeText text).isEmpty = false)
    (hrun : fillRun measure textMaxWidth fuel
      (initFillState (mergeCJKPunct (tokenizeText text))) = some st) :
    layoutText measure textSize textMaxWidth text fuel =
      some { width := min st.maxW textMaxWidth
             height := (st.lines.length : ℚ) * textSize +
               ((st.lines.length : ℚ) - 1) * (1/4) * textSize
             lines := st.lines } ∧
    min st.maxW textMaxWidth = st.maxW := by
  have hinit : (initFillState (mergeCJKPunct (tokenizeText text))).maxW ≤ textMaxWidth := by
    simpa [initFillState] using hpos.le
  have hinv : st.maxW ≤ textMaxWidth :=
    fillRun_maxW measure textMaxWidth fuel _ st hinit hrun
  constructor
  · simp [layoutText, htok, hrun]
  · exact min_eq_left hinv

/-- A measurement oracle reporting width 1 for every string. -/
def constMeasure : String → ℚ := fun _ => 1

/-- Witness for C9 on the single-unit text `"ab"` with `maxWidth = 1`. -/
theorem layoutText_box_witness :
    layoutText constMeasure 24 1 "ab" 1 =
      some { width := min (1:ℚ) 1
             height := ((["ab"].length : ℚ)) * 24 + ((["ab"].length : ℚ) - 1) * (1/4) * 24
             lines := ["ab"] } ∧
    min (1:ℚ) 1 = 1 :=
  layoutText_box constMeasure 24 1 "ab" 1 ⟨[], ["ab"], "ab", 1⟩
    (by norm_num) (by decide) (by decide)
